import Mathlib

/-!
Shallow embedding of the result-resolution pipeline of `md.py`
(mediathek-view-downloader): record model, quality fallback resolution,
pagination accumulation, topic disambiguation, season/episode extraction,
season sorting and the interactive season prompt, together with theorems
settling the specification claims.
-/

namespace MD

/-- Model of one search-result record (a JSON object in `md.py`).
`none` models an absent key, `some ""` a present-but-empty value.
`videoType` models the `"video-type"` key written by `update_video_type`. -/
structure VideoInfo where
  title : String := ""
  topic : Option String := none
  url_video_low : Option String := none
  url_video : Option String := none
  url_video_hd : Option String := none
  url_subtitle : Option String := none
  season : Option String := none
  episode : Option String := none
  videoType : Option String := none
  deriving DecidableEq, Repr

def VIDEO_TYPE_EPISODE : String := "episode"

def VIDEO_TYPE_MOVIE : String := "movie"

/-- Python truthiness of an optional string: `None` and `""` are falsy. -/
def truthy : Option String → Bool
  | none => false
  | some s => s != ""

/-- Strip leading and trailing whitespace (Python `int` ignores it). -/
def stripWs (cs : List Char) : List Char :=
  ((cs.dropWhile Char.isWhitespace).reverse.dropWhile Char.isWhitespace).reverse

def digitsVal (cs : List Char) : Nat :=
  cs.foldl (fun a c => a * 10 + (c.toNat - 48)) 0

/-- Model of Python `int(s)` on a string: optional surrounding whitespace,
an optional sign, then one or more decimal digits; `none` models the
`ValueError` Python raises otherwise. (Underscore digit separators are
not modelled.) -/
def pyInt (s : String) : Option Int :=
  match stripWs s.data with
  | '-' :: ds =>
    if ds ≠ [] ∧ ds.all Char.isDigit then some (-(digitsVal ds : Int)) else none
  | '+' :: ds =>
    if ds ≠ [] ∧ ds.all Char.isDigit then some ((digitsVal ds : Int)) else none
  | ds =>
    if ds ≠ [] ∧ ds.all Char.isDigit then some ((digitsVal ds : Int)) else none

/-- `valueOrElse` from md.py: `None` gives the default, otherwise
`int(value)` with `ValueError`/`TypeError` giving the default. -/
def valueOrElse (value : Option String) (d : Int) : Int :=
  match value with
  | none => d
  | some s => (pyInt s).getD d

/-- The `quality_map` dictionary lookup in `get_video_url_by_quality`. -/
def quality_map (video_info : VideoInfo) : String → Option String
  | "low" => video_info.url_video_low
  | "medium" => video_info.url_video
  | "hd" => video_info.url_video_hd
  | _ => none

/-- Model of `re.search(r"\.([a-zA-Z0-9]+)(?:$)", url)`: the leftmost dot
whose entire remaining tail is one or more ASCII alphanumerics (hence the
last dot-suffix of the string); returns the captured group. -/
def extMatch : List Char → Option (List Char)
  | [] => none
  | c :: rest =>
    if c = '.' ∧ rest ≠ [] ∧ rest.all Char.isAlphanum then some rest
    else extMatch rest

/-- The file-extension derivation shared by `get_video_url_by_quality` and
`get_subtitle_url`: keep the default unless the URL is truthy and has a
dot-suffix. -/
def extensionOrDefault (url : Option String) (dflt : String) : String :=
  if truthy url then
    match extMatch (url.getD "").data with
    | some g => "." ++ String.mk g
    | none => dflt
  else dflt

/-- The `if quality not in quality_map` coercion in
`get_video_url_by_quality`. -/
def normalizeQuality (quality : String) : String :=
  if quality = "low" ∨ quality = "medium" ∨ quality = "hd" then quality else "medium"

/-- The URL selection of `get_video_url_by_quality` for an
already-normalized quality: keep a truthy requested-tier URL, otherwise
run the fallback loop over `url_video_hd`, `url_video`, `url_video_low`
(the Python loop leaves the last tried value, truthy or not). -/
def resolveVideoUrl (video_info : VideoInfo) (q : String) : Option String :=
  if truthy (quality_map video_info q) then quality_map video_info q
  else if truthy video_info.url_video_hd then video_info.url_video_hd
  else if truthy video_info.url_video then video_info.url_video
  else video_info.url_video_low

/-- `get_video_url_by_quality` from md.py. -/
def get_video_url_by_quality (video_info : VideoInfo) (quality : String) :
    Option String × String :=
  (resolveVideoUrl video_info (normalizeQuality quality),
   extensionOrDefault (resolveVideoUrl video_info (normalizeQuality quality)) ".mp4")

/-- One transport response in the pagination loop of `query_api`. -/
structure ApiResponse where
  status_code : Nat := 200
  results : List VideoInfo := []
  deriving DecidableEq, Repr

/-- The `while True` pagination loop of `query_api`, over the sequence of
responses the transport would return; `all_results` is the accumulator.
A non-200 status or an empty page stops the loop, returning what was
accumulated so far. -/
def queryApiLoop (all_results : List VideoInfo) : List ApiResponse → List VideoInfo
  | [] => all_results
  | r :: rs =>
    if r.status_code ≠ 200 then all_results
    else if r.results.isEmpty then all_results
    else queryApiLoop (all_results ++ r.results) rs

/-- `query_api` from md.py, abstracted over the transport's responses. -/
def query_api (responses : List ApiResponse) : List VideoInfo :=
  queryApiLoop [] responses

/-- Lexicographic `≤` on character lists by code point (Python's string
ordering, used by `sorted(topics)`). -/
def charListLe : List Char → List Char → Bool
  | [], _ => true
  | _ :: _, [] => false
  | a :: as, b :: bs =>
    if a.toNat < b.toNat then true
    else if a.toNat = b.toNat then charListLe as bs
    else false

/-- Python string `≤`, character by character. -/
def strLe (a b : String) : Bool := charListLe a.data b.data

/-- The distinct truthy topics in lexicographic order
(`sorted(topics)` over the set built in `select_topic`). -/
def collectTopics (all_results : List VideoInfo) : List String :=
  (((all_results.filterMap VideoInfo.topic).filter (fun t => t != "")).dedup).mergeSort strLe

/-- The retry loop in `select_topic`, consuming one line of user input per
iteration; `none` models exhausting the supplied input while the code is
still prompting. Non-numeric input and out-of-range numbers re-prompt. -/
def selectTopicLoop (topics : List String) (all_results : List VideoInfo) :
    List String → Option (List VideoInfo × String)
  | [] => none
  | inp :: rest =>
    match pyInt inp with
    | none => selectTopicLoop topics all_results rest
    | some choice =>
      if 1 ≤ choice ∧ choice ≤ (topics.length : Int) then
        let selected := topics.getD (choice - 1).toNat ""
        some (all_results.filter (fun v => v.topic == some selected), selected)
      else selectTopicLoop topics all_results rest

/-- `select_topic` from md.py, with the user's input supplied as a list of
lines: more than one topic prompts, exactly one returns everything
unfiltered, none returns the empty list and no topic. -/
def select_topic (all_results : List VideoInfo) (inputs : List String) :
    Option (List VideoInfo × Option String) :=
  match collectTopics all_results with
  | [] => some ([], none)
  | [t] => some (all_results, some t)
  | ts => (selectTopicLoop ts all_results inputs).map (fun p => (p.1, some p.2))

/-- The tail of a `S(\d+)/E(\d+)` match, after the `S` and the first
digit run `ds`: the remainder must continue with `/`, `E` and a nonempty
digit run, which becomes the second capture. -/
def matchTail (ds : List Char) : List Char → Option (String × String)
  | c1 :: c2 :: r2 =>
    if c1 = '/' ∧ c2 = 'E' then
      if (r2.takeWhile Char.isDigit).isEmpty then none
      else some (String.mk ds, String.mk (r2.takeWhile Char.isDigit))
    else none
  | _ => none

/-- Matching `S(\d+)/E(\d+)` anchored at the head of the character list:
`S`, a maximal nonempty digit run, `/`, `E`, a maximal nonempty digit run.
The digit runs are maximal, which is exactly the greedy `\d+` semantics
(a shorter run would end in a digit, not `/` or the end of the capture). -/
def matchSE : List Char → Option (String × String)
  | [] => none
  | c :: rest =>
    if c = 'S' then
      if (rest.takeWhile Char.isDigit).isEmpty then none
      else matchTail (rest.takeWhile Char.isDigit) (rest.dropWhile Char.isDigit)
    else none

/-- Model of `re.search(r"S(\d+)\/E(\d+)", title)`: try `matchSE` at every
position from the left and return the captures of the leftmost match. -/
def searchSE : List Char → Option (String × String)
  | [] => none
  | c :: cs =>
    match matchSE (c :: cs) with
    | some r => some r
    | none => searchSE cs

/-- The per-record body of the `determine_season_and_episode` loop: set
`season`/`episode` to the captured digit strings of the first
`S(\d+)/E(\d+)` match in the title, or both to `None` on no match. -/
def determineOne (video_info : VideoInfo) : VideoInfo :=
  match searchSE video_info.title.data with
  | some se => { video_info with season := some se.1, episode := some se.2 }
  | none => { video_info with season := none, episode := none }

/-- `determine_season_and_episode` from md.py. -/
def determine_season_and_episode (results : List VideoInfo) : List VideoInfo :=
  results.map determineOne

/-- The sort key of `sort_seasons_by_season_and_episode`:
`(valueOrElse(x["season"], 0), valueOrElse(x["episode"], 0))`. -/
def sortKey (x : VideoInfo) : Int × Int :=
  (valueOrElse x.season 0, valueOrElse x.episode 0)

/-- Python tuple comparison: lexicographic `≤` on integer pairs. -/
def tupleLe (a b : Int × Int) : Bool :=
  decide (a.1 < b.1 ∨ (a.1 = b.1 ∧ a.2 ≤ b.2))

/-- `sort_seasons_by_season_and_episode` from md.py: Python `sorted` is a
stable ascending sort, modelled by `List.mergeSort`. -/
def sort_seasons_by_season_and_episode (seasons : List VideoInfo) : List VideoInfo :=
  seasons.mergeSort (fun a b => tupleLe (sortKey a) (sortKey b))

/-- First-occurrence deduplication (`seen` accumulates the keys already
inserted): the insertion order of the keys of the `seasons` dictionary
built in `select_season`. -/
def firstDedupAux {α : Type} [DecidableEq α] (seen : List α) : List α → List α
  | [] => []
  | a :: as => if a ∈ seen then firstDedupAux seen as else a :: firstDedupAux (a :: seen) as

/-- The keys of the `seasons` dictionary of `select_season`, in insertion
order over the (already sorted) results. -/
def seasonKeys (results : List VideoInfo) : List (Option String) :=
  firstDedupAux [] (results.map VideoInfo.season)

/-- The value of the `seasons` dictionary at key `k`: the records with
that season, in list order. -/
def seasonGroup (results : List VideoInfo) (k : Option String) : List VideoInfo :=
  results.filter (fun v => v.season == k)

/-- Model of Python `choice.lower() == "y"` (ASCII lowering, character by
character). -/
def lowerIsY (s : String) : Bool := s.data.map Char.toLower == ['y']

/-- Outcome of running `select_season` against a finite list of input
lines: `exited n` models `exit(n)`, `outOfInput` models the code asking
for another line when none is supplied. -/
inductive SeasonOutcome where
  | outOfInput : SeasonOutcome
  | exited : Nat → SeasonOutcome
  | returned : List VideoInfo → SeasonOutcome
  deriving DecidableEq, Repr

/-- The prompt loop of `select_season`, one input line per iteration.
Empty input or `y`/`Y` returns every season's records; a numeric in-range
choice returns that season's records (seasons ordered by coerced key);
an out-of-range number and non-numeric input both `exit(1)`. -/
def selectSeasonLoop (keys : List (Option String)) (results : List VideoInfo) :
    List String → SeasonOutcome
  | [] => .outOfInput
  | choice :: _ =>
    if choice.isEmpty || lowerIsY choice then
      .returned ((keys.map (seasonGroup results)).flatten)
    else
      match pyInt choice with
      | some n =>
        if 1 ≤ n ∧ n ≤ (keys.length : Int) then
          .returned (seasonGroup results
            ((keys.mergeSort (fun a b => decide (valueOrElse a 0 ≤ valueOrElse b 0))).getD
              (n - 1).toNat none))
        else .exited 1
      | none => .exited 1

/-- The first two lines of `select_season`: extract season/episode, then
sort by (season, episode). -/
def preparedResults (results : List VideoInfo) : List VideoInfo :=
  sort_seasons_by_season_and_episode (determine_season_and_episode results)

/-- `select_season` from md.py with the user's input supplied as a list of
lines: extract season/episode, sort, group by season, then prompt. -/
def select_season (results : List VideoInfo) (inputs : List String) : SeasonOutcome :=
  if (seasonKeys (preparedResults results)).isEmpty then .returned []
  else selectSeasonLoop (seasonKeys (preparedResults results)) (preparedResults results) inputs

/-- Python `f"{n:02d}"`: the decimal representation left-padded with `0`
to at least two characters. -/
def format02d (n : Int) : String :=
  let s := toString n
  if s.length < 2 then "0" ++ s else s

/-- The per-record video filename computed in `download_all_videos`:
the topic (passed as `title`), then for an episode-classified record a
space and `S{season:02d}E{episode:02d}`, then the resolved extension.
`none` models the exception Python raises when an episode-classified
record's season or episode fails integer coercion. -/
def composeVideoFilename (title : String) (video_info : VideoInfo)
    (file_extension : String) : Option String :=
  if video_info.videoType = some VIDEO_TYPE_EPISODE then
    match video_info.season.bind pyInt, video_info.episode.bind pyInt with
    | some ns, some ne =>
      some (title ++ " " ++ "S" ++ format02d ns ++ "E" ++ format02d ne ++ file_extension)
    | _, _ => none
  else some (title ++ file_extension)

/-- The title contains a substring matched by `S(\d+)/E(\d+)`: somewhere
in the character list an `S`, one or more digits, `/E`, one or more
digits. -/
def ContainsSE (cs : List Char) : Prop :=
  ∃ pre ds es suf, cs = pre ++ 'S' :: (ds ++ '/' :: 'E' :: (es ++ suf)) ∧
    ds ≠ [] ∧ es ≠ [] ∧ (∀ c ∈ ds, c.isDigit = true) ∧ (∀ c ∈ es, c.isDigit = true)

/-! ## General helper lemmas -/

theorem truthy_ne_none {o : Option String} (h : truthy o = true) : o ≠ none := by
  intro hn
  subst hn
  simp [truthy] at h

theorem takeWhile_all_append {α : Type} (p : α → Bool) :
    ∀ (l t : List α), (∀ a ∈ l, p a) → (l ++ t).takeWhile p = l ++ t.takeWhile p := by
  intro l t h
  induction l with
  | nil => simp
  | cons a as ih =>
    have ha : p a = true := h a (List.mem_cons_self a as)
    simp only [List.cons_append, List.takeWhile_cons, ha, if_true]
    rw [ih (fun b hb => h b (List.mem_cons_of_mem a hb))]

theorem dropWhile_all_append {α : Type} (p : α → Bool) :
    ∀ (l t : List α), (∀ a ∈ l, p a) → (l ++ t).dropWhile p = t.dropWhile p := by
  intro l t h
  induction l with
  | nil => simp
  | cons a as ih =>
    have ha : p a = true := h a (List.mem_cons_self a as)
    simp only [List.cons_append, List.dropWhile_cons, ha, if_true]
    exact ih (fun b hb => h b (List.mem_cons_of_mem a hb))

/-! ## C8: unrecognized quality tier behaves like "medium" -/

/-- C8: for every record and every tier string other than "low", "medium"
and "hd" (e.g. "ultra"), `get_video_url_by_quality` returns exactly the
same (url, file_extension) pair as for the same record with tier
"medium". -/
theorem c8_unrecognized_tier_behaves_like_medium (v : VideoInfo) (quality : String)
    (h : ¬(quality = "low" ∨ quality = "medium" ∨ quality = "hd")) :
    get_video_url_by_quality v quality = get_video_url_by_quality v "medium" := by
  unfold get_video_url_by_quality normalizeQuality
  rw [if_neg h, if_pos (Or.inr (Or.inl rfl))]

/-- Witness for C8: tier "ultra" on a concrete record. -/
theorem c8_witness :
    ¬("ultra" = "low" ∨ "ultra" = "medium" ∨ "ultra" = "hd") ∧
    get_video_url_by_quality { url_video := some "http://x/v.webm" } "ultra" =
      get_video_url_by_quality { url_video := some "http://x/v.webm" } "medium" :=
  ⟨by decide, c8_unrecognized_tier_behaves_like_medium _ "ultra" (by decide)⟩

/-! ## C5: quality fallback hd → medium → low -/

/-- C5: for every record and recognized tier, a falsy requested-tier URL
triggers the fallback in the fixed order hd → medium → low; if any tier
URL is truthy a non-null URL is returned, and a null URL is only returned
when no tier URL is truthy (in particular `url_video_low` is absent). -/
theorem c5_quality_fallback (v : VideoInfo) (quality : String)
    (hq : quality = "low" ∨ quality = "medium" ∨ quality = "hd") :
    (truthy (quality_map v quality) = false →
      (get_video_url_by_quality v quality).1 =
        (if truthy v.url_video_hd then v.url_video_hd
         else if truthy v.url_video then v.url_video
         else v.url_video_low)) ∧
    ((truthy v.url_video_hd ∨ truthy v.url_video ∨ truthy v.url_video_low) →
      (get_video_url_by_quality v quality).1 ≠ none) ∧
    ((get_video_url_by_quality v quality).1 = none →
      truthy v.url_video_hd = false ∧ truthy v.url_video = false ∧
        v.url_video_low = none) := by
  have hnorm : normalizeQuality quality = quality := if_pos hq
  have hfst : (get_video_url_by_quality v quality).1 = resolveVideoUrl v quality := by
    rw [get_video_url_by_quality, hnorm]
  refine ⟨?_, ?_, ?_⟩
  · intro hfalse
    rw [hfst, resolveVideoUrl, if_neg (by simp [hfalse])]
  · intro hsome
    rw [hfst, resolveVideoUrl]
    by_cases h0 : truthy (quality_map v quality)
    · rw [if_pos h0]
      exact truthy_ne_none h0
    · rw [if_neg h0]
      by_cases h1 : truthy v.url_video_hd
      · rw [if_pos h1]
        exact truthy_ne_none h1
      · rw [if_neg h1]
        by_cases h2 : truthy v.url_video
        · rw [if_pos h2]
          exact truthy_ne_none h2
        · rw [if_neg h2]
          rcases hsome with h | h | h
          · exact absurd h h1
          · exact absurd h h2
          · exact truthy_ne_none h
  · intro hnone
    rw [hfst, resolveVideoUrl] at hnone
    by_cases h0 : truthy (quality_map v quality)
    · rw [if_pos h0] at hnone
      exact absurd hnone (truthy_ne_none h0)
    · rw [if_neg h0] at hnone
      by_cases h1 : truthy v.url_video_hd
      · rw [if_pos h1] at hnone
        exact absurd hnone (truthy_ne_none h1)
      · rw [if_neg h1] at hnone
        by_cases h2 : truthy v.url_video
        · rw [if_pos h2] at hnone
          exact absurd hnone (truthy_ne_none h2)
        · rw [if_neg h2] at hnone
          exact ⟨Bool.eq_false_iff.mpr h1, Bool.eq_false_iff.mpr h2, hnone⟩

/-- Witness for C5: requested tier "hd" on a record with only
`url_video_low` set returns the low-quality URL. -/
theorem c5_witness :
    truthy (quality_map { url_video_low := some "http://x/v.webm" } "hd") = false ∧
    (get_video_url_by_quality { url_video_low := some "http://x/v.webm" } "hd").1 =
      some "http://x/v.webm" := by
  refine ⟨by decide, ?_⟩
  have h := (c5_quality_fallback { url_video_low := some "http://x/v.webm" } "hd"
    (by decide)).1 (by decide)
  rw [h]
  decide

/-! ## C10: present-but-empty requested-tier URL -/

/-- The C10 counterexample record: `url_video_low` present but empty. -/
def c10rec : VideoInfo := { url_video_low := some "" }

/-- Counterexample to C10 as stated: on a record whose only tier field is
the present-but-empty `url_video_low`, requesting tier "low" returns that
same empty string as the resolved URL — so a present-but-empty
requested-tier URL can be returned. -/
theorem c10_counterexample :
    c10rec.url_video_low = some "" ∧ truthy c10rec.url_video_low = false ∧
    (get_video_url_by_quality c10rec "low").1 = some "" := by decide

/-- C10 as amended: a present-but-empty requested-tier URL is treated as
absent and triggers the fallback chain hd → medium → low, and it is never
returned whenever any tier holds a truthy (non-empty) URL; only when no
tier URL is truthy can the returned URL be the low field's (possibly
empty) value. -/
theorem c10_empty_tier_falls_back (v : VideoInfo) (quality : String)
    (hq : quality = "low" ∨ quality = "medium" ∨ quality = "hd")
    (he : quality_map v quality = some "") :
    ((get_video_url_by_quality v quality).1 =
      (if truthy v.url_video_hd then v.url_video_hd
       else if truthy v.url_video then v.url_video
       else v.url_video_low)) ∧
    ((truthy v.url_video_hd ∨ truthy v.url_video ∨ truthy v.url_video_low) →
      truthy (get_video_url_by_quality v quality).1 = true) := by
  have hnorm : normalizeQuality quality = quality := if_pos hq
  have hfst : (get_video_url_by_quality v quality).1 = resolveVideoUrl v quality := by
    rw [get_video_url_by_quality, hnorm]
  have hfalse : truthy (quality_map v quality) = false := by
    rw [he]
    decide
  have hfb : (get_video_url_by_quality v quality).1 =
      (if truthy v.url_video_hd then v.url_video_hd
       else if truthy v.url_video then v.url_video
       else v.url_video_low) := by
    rw [hfst, resolveVideoUrl, if_neg (by simp [hfalse])]
  refine ⟨hfb, ?_⟩
  intro hsome
  rw [hfb]
  by_cases h1 : truthy v.url_video_hd
  · rw [if_pos h1]
    exact h1
  · rw [if_neg h1]
    by_cases h2 : truthy v.url_video
    · rw [if_pos h2]
      exact h2
    · rw [if_neg h2]
      rcases hsome with h | h | h
      · exact absurd h h1
      · exact absurd h h2
      · exact h

/-- Witness for the amended C10: `url_video_hd` present but empty and a
non-empty medium URL; requesting "hd" yields a truthy URL, not the empty
string. -/
theorem c10_witness :
    quality_map { url_video_hd := some "", url_video := some "http://x/v.mp4" } "hd" =
      some "" ∧
    truthy (get_video_url_by_quality
      { url_video_hd := some "", url_video := some "http://x/v.mp4" } "hd").1 = true :=
  ⟨by decide,
    (c10_empty_tier_falls_back { url_video_hd := some "", url_video := some "http://x/v.mp4" }
      "hd" (by decide) (by decide)).2 (by decide)⟩

/-! ## C4: pagination accumulation -/

/-- A response page continues the pagination loop: success status and a
non-empty result list. -/
def pageContinues (r : ApiResponse) : Bool :=
  r.status_code == 200 && !r.results.isEmpty

theorem queryApiLoop_eq (responses : List ApiResponse) :
    ∀ acc, queryApiLoop acc responses =
      acc ++ ((responses.takeWhile pageContinues).map ApiResponse.results).flatten := by
  induction responses with
  | nil =>
    intro acc
    simp [queryApiLoop]
  | cons r rs ih =>
    intro acc
    by_cases h1 : r.status_code = 200
    · by_cases h2 : r.results.isEmpty
      · have hp : pageContinues r = false := by simp [pageContinues, h1, h2]
        simp [queryApiLoop, h1, h2, List.takeWhile_cons, hp]
      · have hp : pageContinues r = true := by simp [pageContinues, h1, h2]
        simp only [queryApiLoop, h1, h2, if_false, if_true, ne_eq, not_true_eq_false,
          List.takeWhile_cons, hp]
        rw [ih (acc ++ r.results)]
        simp [List.append_assoc]
    · have hp : pageContinues r = false := by simp [pageContinues, h1]
      simp [queryApiLoop, h1, List.takeWhile_cons, hp]

/-- C4: `query_api` returns the concatenation, in page order, of all
pages up to (excluding) the first empty or non-success page; in
particular a non-success page aborts pagination but the pages accumulated
before it are still returned, not discarded. -/
theorem c4_pagination_accumulates :
    (∀ responses : List ApiResponse,
      query_api responses =
        ((responses.takeWhile pageContinues).map ApiResponse.results).flatten) ∧
    (∀ (good : List ApiResponse) (bad : ApiResponse) (rest : List ApiResponse),
      (∀ r ∈ good, r.status_code = 200 ∧ r.results ≠ []) → bad.status_code ≠ 200 →
      query_api (good ++ bad :: rest) = (good.map ApiResponse.results).flatten) := by
  constructor
  · intro responses
    rw [query_api, queryApiLoop_eq]
    simp
  · intro good bad rest hgood hbad
    rw [query_api, queryApiLoop_eq]
    have hall : ∀ r ∈ good, pageContinues r = true := by
      intro r hr
      have := hgood r hr
      simp [pageContinues, this.1, this.2]
    rw [takeWhile_all_append _ _ _ hall]
    have hb : pageContinues bad = false := by
      simp [pageContinues, hbad]
    simp [List.takeWhile_cons, hb]

/-- Witness for C4: a successful page, then a status-500 page, then
another page; the first page's records are returned. -/
theorem c4_witness :
    query_api [⟨200, [{ title := "p1" }]⟩, ⟨500, [{ title := "p2" }]⟩,
      ⟨200, [{ title := "p3" }]⟩] = [{ title := "p1" }] := by
  have h := c4_pagination_accumulates.2 [⟨200, [{ title := "p1" }]⟩]
    ⟨500, [{ title := "p2" }]⟩ [⟨200, [{ title := "p3" }]⟩] (by decide) (by decide)
  simpa using h

/-! ## C9: filename composition -/

/-- C9: for an EPISODE-classified record the composed video filename is
the topic, a space, `S` and `E` codes with the integer-coerced season and
episode zero-padded to at least two digits via `format02d`, then the
extension; for a MOVIE (single) record it is the topic plus the extension
with no episode code. -/
theorem c9_filename_composition :
    (∀ (title : String) (v : VideoInfo) (ext s e : String) (ns ne : Int),
      v.videoType = some VIDEO_TYPE_EPISODE → v.season = some s → v.episode = some e →
      pyInt s = some ns → pyInt e = some ne →
      composeVideoFilename title v ext =
        some (title ++ " " ++ "S" ++ format02d ns ++ "E" ++ format02d ne ++ ext)) ∧
    (∀ (title : String) (v : VideoInfo) (ext : String),
      v.videoType = some VIDEO_TYPE_MOVIE →
      composeVideoFilename title v ext = some (title ++ ext)) := by
  constructor
  · intro title v ext s e ns ne hv hs he hns hne
    rw [composeVideoFilename, if_pos hv, hs, he]
    simp [hns, hne]
  · intro title v ext hv
    rw [composeVideoFilename, if_neg (by simp [hv, VIDEO_TYPE_MOVIE, VIDEO_TYPE_EPISODE])]

/-- Witness for C9: topic "MyShow", season "1", episode "5", extension
".mp4" yields "MyShow S01E05.mp4". -/
theorem c9_witness :
    composeVideoFilename "MyShow"
      { videoType := some "episode", season := some "1", episode := some "5" } ".mp4" =
      some "MyShow S01E05.mp4" := by
  have h := c9_filename_composition.1 "MyShow"
    { videoType := some "episode", season := some "1", episode := some "5" }
    ".mp4" "1" "5" 1 5 rfl rfl rfl (by decide) (by decide)
  rw [h]
  decide

/-! ## C1: non-numeric season-prompt input -/

/-- C1 (behavior the code actually has): at the season prompt, an input
line that is non-empty, not "y"/"Y" and non-numeric makes `select_season`
call `exit(1)` — it does not re-prompt, contrary to the claim and to the
retry loop in `select_topic`. -/
theorem c1_nonnumeric_season_input_exits (results : List VideoInfo)
    (choice : String) (rest : List String)
    (hk : (seasonKeys (preparedResults results)).isEmpty = false)
    (hne : choice.isEmpty = false) (hy : lowerIsY choice = false)
    (hnum : pyInt choice = none) :
    select_season results (choice :: rest) = .exited 1 := by
  rw [select_season, if_neg (by simp [hk])]
  rw [selectSeasonLoop]
  simp [hne, hy, hnum]

unseal List.merge List.mergeSort in
/-- Witness for C1: the input "abc" (with more input still available)
terminates the run with exit status 1. -/
theorem c1_witness :
    pyInt "abc" = none ∧ ("abc" : String).isEmpty = false ∧ lowerIsY "abc" = false ∧
    select_season [{ title := "Show S1/E03" }] ["abc", "1"] = .exited 1 :=
  ⟨by decide, by decide, by decide,
    c1_nonnumeric_season_input_exits [{ title := "Show S1/E03" }] "abc" ["1"]
      (by decide) (by decide) (by decide) (by decide)⟩

/-! ## C2: topic prompt retry loop -/

theorem charListLe_total : ∀ (a b : List Char), (charListLe a b || charListLe b a) = true := by
  intro a
  induction a with
  | nil =>
    intro b
    simp [charListLe]
  | cons x xs ih =>
    intro b
    cases b with
    | nil => simp [charListLe]
    | cons y ys =>
      simp only [charListLe]
      by_cases h1 : x.toNat < y.toNat
      · rw [if_pos h1]
        simp
      · by_cases h2 : x.toNat = y.toNat
        · rw [if_neg h1, if_pos h2, if_neg (by omega), if_pos (by omega)]
          exact ih ys
        · rw [if_neg h1, if_neg h2, if_pos (by omega)]
          simp

theorem charListLe_trans : ∀ (a b c : List Char),
    charListLe a b = true → charListLe b c = true → charListLe a c = true := by
  intro a
  induction a with
  | nil =>
    intro b c _ _
    rfl
  | cons x xs ih =>
    intro b c hab hbc
    cases b with
    | nil => simp [charListLe] at hab
    | cons y ys =>
      cases c with
      | nil => simp [charListLe] at hbc
      | cons z zs =>
        simp only [charListLe] at hab hbc ⊢
        by_cases h1 : x.toNat < y.toNat
        · by_cases h2 : y.toNat < z.toNat
          · rw [if_pos (by omega)]
          · by_cases h3 : y.toNat = z.toNat
            · rw [if_pos (by omega)]
            · rw [if_neg h2, if_neg h3] at hbc
              simp at hbc
        · by_cases h1' : x.toNat = y.toNat
          · rw [if_neg h1, if_pos h1'] at hab
            by_cases h2 : y.toNat < z.toNat
            · rw [if_pos (by omega)]
            · by_cases h3 : y.toNat = z.toNat
              · rw [if_neg h2, if_pos h3] at hbc
                rw [if_neg (by omega), if_pos (by omega)]
                exact ih ys zs hab hbc
              · rw [if_neg h2, if_neg h3] at hbc
                simp at hbc
          · rw [if_neg h1, if_neg h1'] at hab
            simp at hab

theorem strLe_total : ∀ (a b : String), (strLe a b || strLe b a) = true := by
  intro a b
  exact charListLe_total a.data b.data

theorem strLe_trans : ∀ (a b c : String),
    strLe a b = true → strLe b c = true → strLe a c = true := by
  intro a b c
  exact charListLe_trans a.data b.data c.data

/-- Invalid input (non-numeric, or a number out of range) makes the
`select_topic` retry loop consume the line and prompt again. -/
theorem selectTopicLoop_skip (topics : List String) (rs : List VideoInfo)
    (inp : String) (rest : List String)
    (hbad : ∀ m : Int, pyInt inp = some m → ¬(1 ≤ m ∧ m ≤ (topics.length : Int))) :
    selectTopicLoop topics rs (inp :: rest) = selectTopicLoop topics rs rest := by
  cases hp : pyInt inp with
  | none => simp only [selectTopicLoop, hp]
  | some m =>
    simp only [selectTopicLoop, hp]
    rw [if_neg (hbad m hp)]

/-- A valid in-range choice terminates the `select_topic` retry loop with
the records filtered to the chosen topic. -/
theorem selectTopicLoop_accept (topics : List String) (rs : List VideoInfo)
    (inp : String) (rest : List String) (n : Int)
    (hn : pyInt inp = some n) (h1 : 1 ≤ n) (h2 : n ≤ (topics.length : Int)) :
    selectTopicLoop topics rs (inp :: rest) =
      some (rs.filter (fun v => v.topic == some (topics.getD (n - 1).toNat "")),
        topics.getD (n - 1).toNat "") := by
  simp only [selectTopicLoop, hn]
  rw [if_pos ⟨h1, h2⟩]

/-- C2: with more than one distinct non-empty topic, the topic list is in
lexicographic order, and the prompt loop skips any run of invalid lines
(non-numeric or out-of-range) and, at the first valid 1-based index,
returns exactly the records whose topic equals the topic at that index. -/
theorem c2_topic_prompt_loop (results : List VideoInfo) (ts : List String)
    (hts : collectTopics results = ts) (hlen : 1 < ts.length) :
    ts.Pairwise (fun a b => strLe a b = true) ∧
    (∀ (bads : List String) (good : String) (rest : List String) (n : Int),
      (∀ b ∈ bads, ∀ m : Int, pyInt b = some m → ¬(1 ≤ m ∧ m ≤ (ts.length : Int))) →
      pyInt good = some n → 1 ≤ n → n ≤ (ts.length : Int) →
      select_topic results (bads ++ good :: rest) =
        some (results.filter (fun v => v.topic == some (ts.getD (n - 1).toNat "")),
          some (ts.getD (n - 1).toNat ""))) := by
  constructor
  · have hs := @List.sorted_mergeSort _ strLe strLe_trans strLe_total
      (((results.filterMap VideoInfo.topic).filter (fun t => t != "")).dedup)
    rw [collectTopics] at hts
    rw [← hts]
    exact hs.imp (fun h => h)
  · cases ts with
    | nil => simp at hlen
    | cons a tail =>
      cases tail with
      | nil => simp at hlen
      | cons b ts' =>
        have hsel : ∀ inputs, select_topic results inputs =
            (selectTopicLoop (a :: b :: ts') results inputs).map
              (fun p => (p.1, some p.2)) := by
          intro inputs
          simp only [select_topic, hts]
        intro bads good rest n
        induction bads with
        | nil =>
          intro _ hn h1 h2
          rw [List.nil_append, hsel,
            selectTopicLoop_accept (a :: b :: ts') results good rest n hn h1 h2]
          rfl
        | cons bd bads' ih =>
          intro hbads hn h1 h2
          rw [List.cons_append, hsel,
            selectTopicLoop_skip (a :: b :: ts') results bd (bads' ++ good :: rest)
              (hbads bd (List.mem_cons_self bd bads')), ← hsel]
          exact ih (fun x hx m hm => hbads x (List.mem_cons_of_mem bd hx) m hm) hn h1 h2

unseal List.merge List.mergeSort in
/-- Witness for C2: topics A and B; the inputs "x" (non-numeric) and "7"
(out of range) re-prompt, then "2" selects topic "B" and only the B
records are returned. -/
theorem c2_witness :
    select_topic [{ topic := some "B" }, { topic := some "A" }, { topic := some "B" }]
      ["x", "7", "2"] =
      some ([{ topic := some "B" }, { topic := some "B" }], some "B") := by
  have h := (c2_topic_prompt_loop
    [{ topic := some "B" }, { topic := some "A" }, { topic := some "B" }]
    ["A", "B"] (by decide) (by decide)).2 ["x", "7"] "2" [] 2
    (by
      intro x hx m hm
      simp only [List.mem_cons, List.not_mem_nil, or_false] at hx
      rcases hx with rfl | rfl
      · rw [show pyInt "x" = none from by decide] at hm
        cases hm
      · rw [show pyInt "7" = some 7 from by decide] at hm
        cases hm
        decide)
    (by decide) (by decide) (by decide)
  exact h.trans (by decide)

/-! ## C3: topic invariant of the returned result set -/

unseal List.merge List.mergeSort in
/-- Counterexample to C3 as stated: with one record of topic "A" and one
record without a topic there is exactly one distinct topic, and
`select_topic` returns both records unfiltered — the topicless record
does not have the common topic, so not every returned record has it. -/
theorem c3_counterexample :
    select_topic [{ topic := some "A" }, { topic := none }] [] =
      some ([{ topic := some "A" }, { topic := none }], some "A") ∧
    ({ topic := none } : VideoInfo).topic ≠ some "A" ∧
    ({ topic := some "A" } : VideoInfo).topic = some "A" := by decide

theorem mem_collectTopics {results : List VideoInfo} {v : VideoInfo} {s : String}
    (hv : v ∈ results) (hs : v.topic = some s) (hne : s ≠ "") :
    s ∈ collectTopics results := by
  rw [collectTopics, List.mem_mergeSort, List.mem_dedup, List.mem_filter]
  exact ⟨List.mem_filterMap.mpr ⟨v, hv, hs⟩, by simpa using hne⟩

/-- The `select_topic` retry loop only ever returns the input records
filtered to the selected topic. -/
theorem selectTopicLoop_result (topics : List String) (rs : List VideoInfo) :
    ∀ (inputs : List String) (p : List VideoInfo × String),
      selectTopicLoop topics rs inputs = some p →
      p.1 = rs.filter (fun v => v.topic == some p.2) := by
  intro inputs
  induction inputs with
  | nil =>
    intro p h
    simp [selectTopicLoop] at h
  | cons inp rest ih =>
    intro p h
    cases hp : pyInt inp with
    | none =>
      simp only [selectTopicLoop, hp] at h
      exact ih p h
    | some m =>
      simp only [selectTopicLoop, hp] at h
      by_cases hr : 1 ≤ m ∧ m ≤ (topics.length : Int)
      · rw [if_pos hr] at h
        injection h with h'
        subst h'
        rfl
      · rw [if_neg hr] at h
        exact ih p h

/-- C3 as amended: whenever `select_topic` returns a record list and a
topic, every returned record with a truthy (non-empty) topic has exactly
the returned topic; records with an absent or empty topic may also be
returned (in the single-distinct-topic case, which returns the input
unfiltered). -/
theorem c3_topic_invariant_amended (results : List VideoInfo) (inputs : List String)
    (out : List VideoInfo) (t : Option String)
    (h : select_topic results inputs = some (out, t)) :
    ∀ v ∈ out, truthy v.topic = true → ∃ s, t = some s ∧ v.topic = some s := by
  intro v hv htr
  cases hts : collectTopics results with
  | nil =>
    simp only [select_topic, hts] at h
    injection h with h'
    rw [← (Prod.mk.injEq _ _ _ _).mp h' |>.1] at hv
    simp at hv
  | cons a tail =>
    cases tail with
    | nil =>
      simp only [select_topic, hts] at h
      injection h with h'
      obtain ⟨hout, ht⟩ := (Prod.mk.injEq _ _ _ _).mp h'
      subst hout
      subst ht
      cases hvt : v.topic with
      | none =>
        rw [hvt] at htr
        simp [truthy] at htr
      | some s =>
        have hne : s ≠ "" := by
          rw [hvt] at htr
          simpa [truthy] using htr
        have hmem : s ∈ collectTopics results := mem_collectTopics hv hvt hne
        rw [hts] at hmem
        simp only [List.mem_singleton] at hmem
        refine ⟨a, rfl, ?_⟩
        exact congrArg some hmem
    | cons b ts' =>
      simp only [select_topic, hts] at h
      cases hloop : selectTopicLoop (a :: b :: ts') results inputs with
      | none =>
        rw [hloop] at h
        simp at h
      | some p =>
        rw [hloop] at h
        have hres := selectTopicLoop_result (a :: b :: ts') results inputs p hloop
        simp only [Option.map_some'] at h
        injection h with h'
        obtain ⟨hout, ht⟩ := (Prod.mk.injEq _ _ _ _).mp h'
        subst hout
        subst ht
        rw [hres] at hv
        have := (List.mem_filter.mp hv).2
        exact ⟨p.2, rfl, by simpa using this⟩

unseal List.merge List.mergeSort in
/-- Witness for the amended C3, at the counterexample input: the record
with topic "A" indeed carries the returned topic. -/
theorem c3_witness :
    truthy ({ topic := some "A" } : VideoInfo).topic = true ∧
    ∃ s, (some "A" : Option String) = some s ∧
      ({ topic := some "A" } : VideoInfo).topic = some s :=
  ⟨by decide,
    c3_topic_invariant_amended [{ topic := some "A" }, { topic := none }] []
      [{ topic := some "A" }, { topic := none }] (some "A") (by decide)
      { topic := some "A" } (by decide) (by decide)⟩

/-! ## C7: season/episode sort is total, stable and key-ordered -/

theorem tupleLe_trans (a b c : Int × Int) :
    tupleLe a b = true → tupleLe b c = true → tupleLe a c = true := by
  simp only [tupleLe, decide_eq_true_eq]
  omega

theorem tupleLe_total (a b : Int × Int) : (tupleLe a b || tupleLe b a) = true := by
  simp only [tupleLe, Bool.or_eq_true, decide_eq_true_eq]
  omega

/-- C7: the sort is ordered by the coerced (season, episode) key pair, is
a permutation of the input (total, and every record — hence its original
season/episode strings — is kept unchanged), and is stable: the records
carrying any fixed key appear in the output in exactly their input
order. -/
theorem c7_sort_stable_total (l : List VideoInfo) :
    (sort_seasons_by_season_and_episode l).Pairwise
      (fun a b => tupleLe (sortKey a) (sortKey b) = true) ∧
    (sort_seasons_by_season_and_episode l).Perm l ∧
    (∀ k : Int × Int,
      (sort_seasons_by_season_and_episode l).filter (fun v => sortKey v == k) =
        l.filter (fun v => sortKey v == k)) := by
  have htrans : ∀ (a b c : VideoInfo),
      tupleLe (sortKey a) (sortKey b) → tupleLe (sortKey b) (sortKey c) →
      tupleLe (sortKey a) (sortKey c) :=
    fun a b c hab hbc => tupleLe_trans _ _ _ hab hbc
  have htotal : ∀ (a b : VideoInfo),
      (tupleLe (sortKey a) (sortKey b) || tupleLe (sortKey b) (sortKey a)) = true :=
    fun a b => tupleLe_total _ _
  refine ⟨?_, ?_, ?_⟩
  · exact (List.sorted_mergeSort htrans htotal l).imp (fun h => h)
  · exact List.mergeSort_perm l _
  · intro k
    have hmemkey : ∀ v ∈ l.filter (fun v => sortKey v == k), sortKey v = k := by
      intro v hv
      exact beq_iff_eq.mp (List.mem_filter.mp hv).2
    have hpair : (l.filter (fun v => sortKey v == k)).Pairwise
        (fun a b => tupleLe (sortKey a) (sortKey b)) := by
      apply List.pairwise_of_forall_mem_list
      intro a ha b hb
      show tupleLe (sortKey a) (sortKey b) = true
      rw [hmemkey a ha, hmemkey b hb]
      simp [tupleLe]
    have hsub : List.Sublist (l.filter (fun v => sortKey v == k))
        (sort_seasons_by_season_and_episode l) :=
      List.sublist_mergeSort htrans htotal hpair (List.filter_sublist l)
    have hff : (l.filter (fun v => sortKey v == k)).filter (fun v => sortKey v == k) =
        l.filter (fun v => sortKey v == k) :=
      List.filter_eq_self.mpr (fun a ha => (List.mem_filter.mp ha).2)
    have hsub2 : List.Sublist (l.filter (fun v => sortKey v == k))
        ((sort_seasons_by_season_and_episode l).filter (fun v => sortKey v == k)) := by
      have h2 := hsub.filter (fun v => sortKey v == k)
      rwa [hff] at h2
    have hperm : List.Perm
        ((sort_seasons_by_season_and_episode l).filter (fun v => sortKey v == k))
        (l.filter (fun v => sortKey v == k)) :=
      (List.mergeSort_perm l _).filter _
    exact (hsub2.eq_of_length hperm.length_eq.symm).symm

/-! ## C6: season/episode extraction from the title -/

/-- A successful `matchSE` decomposes its input as `S`, the first capture
(nonempty digits), `/E`, the second capture (nonempty digits), and a
remainder. -/
theorem matchSE_sound (cs : List Char) (s e : String) (h : matchSE cs = some (s, e)) :
    ∃ suf, cs = 'S' :: (s.data ++ '/' :: 'E' :: (e.data ++ suf)) ∧
      s.data ≠ [] ∧ e.data ≠ [] ∧ (∀ c ∈ s.data, c.isDigit = true) ∧
      (∀ c ∈ e.data, c.isDigit = true) := by
  cases cs with
  | nil => simp [matchSE] at h
  | cons c rest =>
    simp only [matchSE] at h
    by_cases hc : c = 'S'
    · subst hc
      rw [if_pos rfl] at h
      by_cases hds : (rest.takeWhile Char.isDigit).isEmpty
      · rw [if_pos hds] at h
        simp at h
      · rw [if_neg hds] at h
        cases hdrop : rest.dropWhile Char.isDigit with
        | nil =>
          rw [hdrop] at h
          simp [matchTail] at h
        | cons c1 tail1 =>
          cases tail1 with
          | nil =>
            rw [hdrop] at h
            simp [matchTail] at h
          | cons c2 r2 =>
            rw [hdrop] at h
            simp only [matchTail] at h
            by_cases hce : c1 = '/' ∧ c2 = 'E'
            · rw [if_pos hce] at h
              by_cases hes : (r2.takeWhile Char.isDigit).isEmpty
              · rw [if_pos hes] at h
                simp at h
              · rw [if_neg hes] at h
                obtain ⟨hc1, hc2⟩ := hce
                subst hc1
                subst hc2
                injection h with h'
                obtain ⟨hs, he⟩ := Prod.mk.injEq _ _ _ _ |>.mp h'
                subst hs
                subst he
                refine ⟨r2.dropWhile Char.isDigit, ?_, ?_, ?_, ?_, ?_⟩
                · show ('S' : Char) :: rest = 'S' :: (rest.takeWhile Char.isDigit ++
                    '/' :: 'E' :: (r2.takeWhile Char.isDigit ++ r2.dropWhile Char.isDigit))
                  have hr2 : r2.takeWhile Char.isDigit ++ r2.dropWhile Char.isDigit = r2 :=
                    List.takeWhile_append_dropWhile _ _
                  rw [hr2, ← hdrop, List.takeWhile_append_dropWhile]
                · show rest.takeWhile Char.isDigit ≠ []
                  intro hnil
                  apply hds
                  rw [hnil]
                  rfl
                · show r2.takeWhile Char.isDigit ≠ []
                  intro hnil
                  apply hes
                  rw [hnil]
                  rfl
                · intro x hx
                  exact List.mem_takeWhile_imp hx
                · intro x hx
                  exact List.mem_takeWhile_imp hx
            · rw [if_neg hce] at h
              simp at h
    · rw [if_neg hc] at h
      simp at h

/-- A successful `searchSE` is a successful `matchSE` at some split of
the input. -/
theorem searchSE_sound : ∀ (cs : List Char) (r : String × String),
    searchSE cs = some r → ∃ pre suf, cs = pre ++ suf ∧ matchSE suf = some r := by
  intro cs
  induction cs with
  | nil =>
    intro r h
    simp [searchSE] at h
  | cons c cs' ih =>
    intro r h
    cases hm : matchSE (c :: cs') with
    | some r' =>
      simp only [searchSE, hm, Option.some.injEq] at h
      refine ⟨[], c :: cs', rfl, ?_⟩
      rw [hm, h]
    | none =>
      simp only [searchSE, hm] at h
      obtain ⟨pre, suf, heq, hmm⟩ := ih r h
      refine ⟨c :: pre, suf, ?_, hmm⟩
      rw [List.cons_append, ← heq]

/-- `matchSE` succeeds on `S`, nonempty digits, `/E`, nonempty digits,
anything. -/
theorem matchSE_complete (ds es suf : List Char) (hds : ds ≠ []) (hes : es ≠ [])
    (hdd : ∀ c ∈ ds, c.isDigit = true) (hed : ∀ c ∈ es, c.isDigit = true) :
    (matchSE ('S' :: (ds ++ '/' :: 'E' :: (es ++ suf)))).isSome = true := by
  have htw : (ds ++ '/' :: 'E' :: (es ++ suf)).takeWhile Char.isDigit = ds := by
    rw [takeWhile_all_append Char.isDigit ds _ hdd, List.takeWhile_cons,
      if_neg (by decide)]
    exact List.append_nil ds
  have hdw : (ds ++ '/' :: 'E' :: (es ++ suf)).dropWhile Char.isDigit =
      '/' :: 'E' :: (es ++ suf) := by
    rw [dropWhile_all_append Char.isDigit ds _ hdd, List.dropWhile_cons,
      if_neg (by decide)]
  have hds' : (ds.isEmpty = true) → False := by
    intro hempty
    exact hds (List.isEmpty_iff.mp hempty)
  cases es with
  | nil => exact absurd rfl hes
  | cons e0 es' =>
    have he0 : Char.isDigit e0 = true := hed e0 (List.mem_cons_self e0 es')
    simp only [matchSE]
    rw [if_pos trivial, htw, hdw, if_neg hds']
    simp only [List.cons_append, matchTail]
    rw [if_pos (by simp), List.takeWhile_cons, if_pos he0]
    rw [if_neg (by simp)]
    rfl

/-- If `matchSE` succeeds on a suffix, `searchSE` succeeds on the whole
list. -/
theorem searchSE_isSome_append : ∀ (pre cs : List Char),
    (matchSE cs).isSome = true → (searchSE (pre ++ cs)).isSome = true := by
  intro pre
  induction pre with
  | nil =>
    intro cs h
    cases cs with
    | nil => simp [matchSE] at h
    | cons c cs' =>
      rw [List.nil_append]
      cases hm : matchSE (c :: cs') with
      | none =>
        rw [hm] at h
        simp at h
      | some r => simp [searchSE, hm]
  | cons p pre' ih =>
    intro cs h
    rw [List.cons_append]
    cases hm : matchSE (p :: (pre' ++ cs)) with
    | some r => simp [searchSE, hm]
    | none =>
      simp only [searchSE, hm]
      exact ih cs h

theorem determineOne_title (w : VideoInfo) : (determineOne w).title = w.title := by
  cases hse : searchSE w.title.data <;> simp [determineOne, hse]

theorem determineOne_season (w : VideoInfo) :
    (determineOne w).season = (searchSE w.title.data).map Prod.fst := by
  cases hse : searchSE w.title.data <;> simp [determineOne, hse]

theorem determineOne_episode (w : VideoInfo) :
    (determineOne w).episode = (searchSE w.title.data).map Prod.snd := by
  cases hse : searchSE w.title.data <;> simp [determineOne, hse]

/-- C6: after `determine_season_and_episode`, every record's season and
episode are the two captured digit strings of the leftmost
`S(\d+)/E(\d+)` match of its (unchanged) title when one exists — and a
match exists exactly when the title contains such a substring — and both
fields are null when there is no match; in particular the two fields are
always both present or both absent. -/
theorem c6_season_episode_extraction (results : List VideoInfo) (v : VideoInfo)
    (hv : v ∈ determine_season_and_episode results) :
    (∀ s e, searchSE v.title.data = some (s, e) →
      v.season = some s ∧ v.episode = some e) ∧
    (searchSE v.title.data = none → v.season = none ∧ v.episode = none) ∧
    ((searchSE v.title.data).isSome = true ↔ ContainsSE v.title.data) ∧
    ((∃ s e, v.season = some s ∧ v.episode = some e) ∨
      (v.season = none ∧ v.episode = none)) := by
  obtain ⟨w, hw, rfl⟩ := List.mem_map.mp hv
  refine ⟨?_, ?_, ?_, ?_⟩
  · intro s e h
    rw [determineOne_title] at h
    rw [determineOne_season, determineOne_episode, h]
    exact ⟨rfl, rfl⟩
  · intro h
    rw [determineOne_title] at h
    rw [determineOne_season, determineOne_episode, h]
    exact ⟨rfl, rfl⟩
  · rw [determineOne_title]
    constructor
    · intro hs
      obtain ⟨r, hr⟩ := Option.isSome_iff_exists.mp hs
      obtain ⟨pre, suf, heq, hmm⟩ := searchSE_sound _ _ hr
      obtain ⟨suf2, heq2, hds, hes, hdd, hed⟩ := matchSE_sound suf r.1 r.2 hmm
      refine ⟨pre, r.1.data, r.2.data, suf2, ?_, hds, hes, hdd, hed⟩
      rw [heq, heq2]
    · rintro ⟨pre, ds, es, suf, heq, hds, hes, hdd, hed⟩
      rw [heq]
      exact searchSE_isSome_append pre _ (matchSE_complete ds es suf hds hes hdd hed)
  · rw [determineOne_season, determineOne_episode]
    cases hse : searchSE w.title.data with
    | some r => exact Or.inl ⟨r.1, r.2, rfl, rfl⟩
    | none => exact Or.inr ⟨rfl, rfl⟩

/-- The C6 witness input record. -/
def c6rec : VideoInfo := { title := "Show S1/E03 - Pilot" }

/-- The C6 witness output record: season "1", episode "03" extracted. -/
def c6rec' : VideoInfo :=
  { title := "Show S1/E03 - Pilot", season := some "1", episode := some "03" }

/-- Witness for C6 at the title "Show S1/E03 - Pilot": the extracted
record carries season "1" and episode "03", and the title contains the
pattern. -/
theorem c6_witness :
    c6rec' ∈ determine_season_and_episode [c6rec] ∧
    (c6rec'.season = some "1" ∧ c6rec'.episode = some "03") ∧
    ContainsSE c6rec'.title.data := by
  have hm : c6rec' ∈ determine_season_and_episode [c6rec] := by decide
  have h := c6_season_episode_extraction _ _ hm
  exact ⟨hm, h.1 "1" "03" (by decide), h.2.2.1.mp (by decide)⟩

end MD
